import Mathlib

/-!
# Verification of the StreamFetch backend (src/server.js)

Shallow embedding of the pure request-handling logic of the Express server:
URL validation and platform classification (`isValidUrl`, `extractPlatform`),
YouTube URL normalization (`cleanYouTubeUrl`, `extractYouTubeId`), the duration
formatter (`formatDuration`), the three metadata providers
(`getYouTubeMetadata`, `getTikTokMetadata`, `getFacebookMetadata`) and the
decision logic of the `/api/metadata` and `/api/download` handlers.

The server calls the WHATWG `new URL(...)` parser of Node.js; that parser is
embedded below (`URLRec.parse`) restricted to the fragment this server
exercises: input normalization (strip tab/newline, trim C0 controls and
spaces), scheme parsing with ASCII lowercasing, authority parsing for the
special `http`-family schemes (userinfo stripping, host validation and
lowercasing, numeric port), path/query/fragment splitting, and
`application/x-www-form-urlencoded` query handling for `searchParams`.
Not modelled (never exercised by the claims): IDNA/punycode and non-ASCII
hosts, percent-encoding normalization inside paths, dot-segment removal,
`file:` URLs, and authority parsing for non-special schemes (modelled as an
opaque record with empty host).

JavaScript value conventions used throughout: absent (`undefined`/`null`)
string-valued fields are `Option String`, and JS truthiness of a string is
"present and nonempty"; a JS number that may be `null`/`undefined`/`NaN` is
`JSNum`, whose `nan` constructor stands for all values rejected by the
`!seconds || isNaN(seconds)` guard, and whose `int` constructor covers the
integral numbers the claims exercise.
-/

/-! ## Generic list/string helpers (the JS string primitives used) -/

/-- `leadsList p l` : the list `p` is an initial run of `l`
(JS `String.prototype.startsWith` on char lists). -/
def leadsList : List Char → List Char → Bool
  | [], _ => true
  | _ :: _, [] => false
  | p :: ps, c :: cs => p = c && leadsList ps cs

/-- `hasSub p l` : `p` occurs contiguously inside `l`
(JS `String.prototype.includes` on char lists). -/
def hasSub (p : List Char) : List Char → Bool
  | [] => leadsList p []
  | c :: cs => leadsList p (c :: cs) || hasSub p cs

/-- JS `s.includes(pat)`. -/
def containsSub (s pat : String) : Bool :=
  hasSub pat.data s.data

/-- `breakAt p l = (before, rest)` where `before` is the longest initial run of
`l` with no character satisfying `p`, and `rest` is the remainder (empty, or
beginning with the first character satisfying `p`). -/
def breakAt (p : Char → Bool) : List Char → List Char × List Char
  | [] => ([], [])
  | c :: cs =>
    if p c then ([], c :: cs)
    else
      let r := breakAt p cs
      (c :: r.1, r.2)

/-- JS `String.prototype.split(sep)` for a one-character separator, on char
lists: always returns at least one (possibly empty) segment. -/
def splitOnChar (sep : Char) : List Char → List (List Char)
  | [] => [[]]
  | c :: cs =>
    match splitOnChar sep cs with
    | [] => [[]]
    | h :: t => if c = sep then [] :: h :: t else (c :: h) :: t

/-- JS `String.prototype.trim()` (restricted to the ASCII whitespace the
server ever sees): strip leading and trailing whitespace characters. -/
def jsTrim (s : String) : String :=
  String.mk (((s.data.dropWhile Char.isWhitespace).reverse.dropWhile
    Char.isWhitespace).reverse)

/-- JS truthiness of a possibly-absent string: `undefined`, `null` and `""`
are falsy. -/
def jsTruthy : Option String → Bool
  | none => false
  | some s => s ≠ ""

/-- JS `a || b` for a possibly-absent string `a` and a string default `b`. -/
def jsOrStr (a : Option String) (b : String) : String :=
  match a with
  | some s => if s = "" then b else s
  | none => b

/-- JS truthiness filter: keep a present nonempty string, drop the rest. -/
def truthyStr (a : Option String) : Option String :=
  match a with
  | some s => if s = "" then none else some s
  | none => none

/-! ## The duration formatter (`formatDuration`, src/server.js lines 115-138) -/

/-- A JS number as consumed by `formatDuration` and the TikTok `duration`
field: `nan` stands for `undefined`/`null`/`NaN` (all rejected by the
`!seconds || isNaN(seconds)` guard in the same way), `int` for integral
numbers. -/
inductive JSNum where
  | nan : JSNum
  | int : Int → JSNum
deriving Repr, DecidableEq

/-- JS `String.prototype.padStart(2, "0")`. -/
def padStart2 (s : String) : String :=
  if s.length ≥ 2 then s
  else String.mk (List.replicate (2 - s.length) '0') ++ s

/-- `formatDuration(seconds)` (src/server.js lines 115-138): `"Unknown"` when
the guard `!seconds || isNaN(seconds) || seconds < 0` fires (note: `!0` is
true in JS, so `0` yields `"Unknown"`), else hours/minutes/seconds with the
hours part omitted when zero; every part except a leading hours part is
zero-padded to two digits. -/
def formatDuration : JSNum → String
  | JSNum.nan => "Unknown"
  | JSNum.int n =>
    if n = 0 ∨ n < 0 then "Unknown"
    else
      let nn := n.toNat
      let h := nn / 3600
      let m := (nn % 3600) / 60
      let s := nn % 60
      let parts := if h > 0 then [h, m, s] else [m, s]
      String.intercalate ":"
        (parts.enum.map fun ip =>
          if ip.1 = 0 ∧ h > 0 then toString ip.2 else padStart2 (toString ip.2))

/-! ## The WHATWG URL parser fragment (Node's `new URL`, as used by the server) -/

/-- Tab / line feed / carriage return: removed anywhere in the input by the
WHATWG parser. -/
def isTabNl (c : Char) : Bool :=
  c = Char.ofNat 9 ∨ c = Char.ofNat 10 ∨ c = Char.ofNat 13

/-- C0 controls and space: trimmed from both ends of the input by the WHATWG
parser. -/
def isC0Space (c : Char) : Bool :=
  c.toNat ≤ 32

/-- WHATWG input normalization: remove all tab/newline characters, then trim
leading and trailing C0 controls and spaces. -/
def normalizeInput (s : String) : List Char :=
  let l := (s.data.filter fun c => ¬ isTabNl c).dropWhile isC0Space
  (l.reverse.dropWhile isC0Space).reverse

/-- First character of a URL scheme: an ASCII letter. -/
def isSchemeFirst (c : Char) : Bool :=
  c.isAlpha

/-- Later character of a URL scheme: ASCII alphanumeric, `+`, `-` or `.`. -/
def isSchemeRest (c : Char) : Bool :=
  c.isAlphanum ∨ c = '+' ∨ c = '-' ∨ c = '.'

/-- Characters terminating the authority of a special URL. -/
def isAuthorityEnd (c : Char) : Bool :=
  c = '/' ∨ c = '\\' ∨ c = '?' ∨ c = '#'

/-- Code points the WHATWG host parser forbids inside a host. -/
def isForbiddenHost (c : Char) : Bool :=
  c = Char.ofNat 0 ∨ c = ' ' ∨ c = '#' ∨ c = '/' ∨ c = ':' ∨ c = '<' ∨
  c = '>' ∨ c = '?' ∨ c = '@' ∨ c = '[' ∨ c = '\\' ∨ c = ']' ∨ c = '^' ∨
  c = '|'

/-- Strip the userinfo part of an authority: everything up to the last `@`. -/
def afterLastAt (l : List Char) : List Char :=
  if l.contains '@' then (l.reverse.takeWhile fun c => c ≠ '@').reverse else l

/-- Digits of a port read as a decimal number. -/
def digitsToNat (l : List Char) : Nat :=
  l.foldl (fun a c => a * 10 + (c.toNat - 48)) 0

/-- The record `new URL(...)` yields, restricted to the fields the server
reads: `protocol` is `scheme ++ ":"`, `hostname` is `host`, `pathname` is
`pathname`, and `searchParams` reads `query` (the part after `?`, absent when
there was no `?`). -/
structure URLRec where
  scheme : String
  host : String
  port : Option Nat
  pathname : String
  query : Option String
deriving Repr, DecidableEq

/-- Split off the path / query / fragment of a special URL once the authority
has been consumed: drop the fragment at the first `#`, split the query at the
first `?`, treat `\` as `/` in the path, and default the path to `/`. -/
def buildSpecialRest (scheme host : String) (port : Option Nat)
    (pathRest : List Char) : URLRec :=
  let beforeFrag := (breakAt (fun c => c = '#') pathRest).1
  let pq := breakAt (fun c => c = '?') beforeFrag
  let query : Option String :=
    match pq.2 with
    | [] => none
    | _ :: q => some (String.mk q)
  let path :=
    if pq.1 = [] then "/"
    else String.mk (pq.1.map fun c => if c = '\\' then '/' else c)
  ⟨scheme, host, port, path, query⟩

/-- Authority parsing for the special `http`-family schemes: skip every slash
or backslash after the colon, read the authority up to `/ \ ? #`, strip the
userinfo, split host and port at the first `:`, reject an empty host, a host
with a forbidden code point, a non-numeric port or a port above 65535, and
lowercase the host (ASCII). -/
def parseSpecialAfterScheme (scheme : String) (rest : List Char) :
    Option URLRec :=
  let rest := rest.dropWhile fun c => c = '/' ∨ c = '\\'
  let ap := breakAt isAuthorityEnd rest
  let hostport := afterLastAt ap.1
  let hp := breakAt (fun c => c = ':') hostport
  if hp.1 = [] then none
  else if hp.1.any isForbiddenHost then none
  else
    let host := String.mk (hp.1.map Char.toLower)
    match hp.2 with
    | [] => some (buildSpecialRest scheme host none ap.2)
    | _ :: portDigits =>
      if portDigits = [] then some (buildSpecialRest scheme host none ap.2)
      else if portDigits.all Char.isDigit then
        if digitsToNat portDigits < 65536 then
          some (buildSpecialRest scheme host (some (digitsToNat portDigits)) ap.2)
        else none
      else none

/-- The special schemes whose URLs carry an authority; `file:` is not
modelled (its empty-host rules are never exercised by this server). -/
def isSpecialScheme (s : String) : Bool :=
  s = "http" ∨ s = "https" ∨ s = "ws" ∨ s = "wss" ∨ s = "ftp"

/-- Read the scheme of a normalized input: the characters before the first
`:` (an ASCII letter followed by scheme characters), together with the
remainder after the colon; `none` when the input has no colon, an empty
scheme, or an invalid scheme character (a base-less parse then throws). -/
def schemeSplit (l : List Char) : Option (List Char × List Char) :=
  let sr := breakAt (fun c => c = ':') l
  match sr.2 with
  | [] => none
  | _ :: afterColon =>
    match sr.1 with
    | [] => none
    | c0 :: crest =>
      if isSchemeFirst c0 ∧ crest.all isSchemeRest then some (c0 :: crest, afterColon)
      else none

/-- Model of Node's `new URL(input)` with no base, restricted as described in
the header: normalize the input, read and lowercase the scheme (failing when
there is none — a base-less parse with no scheme throws), parse an authority
for the special schemes, and yield an opaque record (empty host, rest as
path) for every other scheme. -/
def URLRec.parse (s : String) : Option URLRec :=
  match schemeSplit (normalizeInput s) with
  | none => none
  | some (schemeCs, afterColon) =>
    let scheme := String.mk (schemeCs.map Char.toLower)
    if isSpecialScheme scheme then
      parseSpecialAfterScheme scheme afterColon
    else
      some ⟨scheme, "", none, String.mk afterColon, none⟩

/-! ## `URLSearchParams` (application/x-www-form-urlencoded) -/

/-- Value of an ASCII hex digit, if any. -/
def hexVal (c : Char) : Option Nat :=
  if '0' ≤ c ∧ c ≤ '9' then some (c.toNat - 48)
  else if 'A' ≤ c ∧ c ≤ 'F' then some (c.toNat - 55)
  else if 'a' ≤ c ∧ c ≤ 'f' then some (c.toNat - 87)
  else none

/-- Form-urlencoded decoding: `+` becomes a space, a valid `%XX` escape
becomes the escaped byte (ASCII assumed: multi-byte UTF-8 sequences are not
recombined), anything else is literal. -/
def percentDecode : List Char → List Char
  | [] => []
  | '%' :: a :: b :: rest =>
    match hexVal a, hexVal b with
    | some ha, some hb => Char.ofNat (16 * ha + hb) :: percentDecode rest
    | _, _ => '%' :: percentDecode (a :: b :: rest)
  | c :: rest => (if c = '+' then ' ' else c) :: percentDecode rest

/-- Parse a query string into its (decoded) name/value pairs: split on `&`,
skip empty segments, split each pair at its first `=` (a pair with no `=` is
a name with empty value). -/
def parseQueryPairs (q : List Char) : List (String × String) :=
  (splitOnChar '&' q).filterMap fun pair =>
    match pair with
    | [] => none
    | _ :: _ =>
      let kv := breakAt (fun c => c = '=') pair
      match kv.2 with
      | [] => some (String.mk (percentDecode kv.1), "")
      | _ :: v => some (String.mk (percentDecode kv.1), String.mk (percentDecode v))

/-- `url.searchParams.get(name)`: the value of the first pair with the given
name, or null. -/
def searchParamsGet (query : Option String) (name : String) : Option String :=
  match query with
  | none => none
  | some q => ((parseQueryPairs q.data).find? fun p => p.1 = name).map Prod.snd

/-- Characters the form-urlencoded serializer leaves unescaped. -/
def isFormSafe (c : Char) : Bool :=
  c.isAlphanum ∨ c = '*' ∨ c = '-' ∨ c = '.' ∨ c = '_'

/-- Upper-case hex digit of a value below 16. -/
def hexDigit (n : Nat) : Char :=
  if n < 10 then Char.ofNat (48 + n) else Char.ofNat (55 + n)

/-- Form-urlencoded serialization of one character (ASCII assumed). -/
def formEncodeChar (c : Char) : List Char :=
  if isFormSafe c then [c]
  else if c = ' ' then ['+']
  else ['%', hexDigit (c.toNat / 16), hexDigit (c.toNat % 16)]

/-- `URLSearchParams` serialization of a value (as produced by
`searchParams.set` followed by `toString`). -/
def formEncode (s : String) : String :=
  String.mk (s.data.map formEncodeChar).flatten

/-- Characters `encodeURIComponent` leaves unescaped. -/
def isUriSafe (c : Char) : Bool :=
  c.isAlphanum ∨ c = '-' ∨ c = '_' ∨ c = '.' ∨ c = '!' ∨ c = '~' ∨
  c = '*' ∨ c = Char.ofNat 39 ∨ c = '(' ∨ c = ')'

/-- JS `encodeURIComponent` (ASCII assumed). -/
def encodeURIComponent (s : String) : String :=
  String.mk (s.data.map fun c =>
    if isUriSafe c then [c]
    else ['%', hexDigit (c.toNat / 16), hexDigit (c.toNat % 16)]).flatten

/-! ## The URL classifier (src/server.js lines 15-57) -/

/-- `PLATFORM_DOMAINS` (src/server.js lines 15-19), in insertion order. -/
def PLATFORM_DOMAINS : List (String × List String) :=
  [("YouTube", ["youtube.com", "www.youtube.com", "youtu.be", "m.youtube.com"]),
   ("TikTok", ["tiktok.com", "www.tiktok.com", "vm.tiktok.com"]),
   ("Facebook", ["facebook.com", "www.facebook.com", "m.facebook.com", "fb.watch"])]

/-- `isValidUrl(string)` (src/server.js lines 29-36): parse with `new URL`,
return whether the protocol is `http:` or `https:`; a parse failure yields
false. -/
def isValidUrl (s : String) : Bool :=
  match URLRec.parse s with
  | none => false
  | some u => u.scheme = "http" ∨ u.scheme = "https"

/-- `extractPlatform(url)` (src/server.js lines 43-57): parse, lowercase the
hostname, and return the first platform of `PLATFORM_DOMAINS` one of whose
domains occurs in the hostname; null when none does or parsing fails. -/
def extractPlatform (url : String) : Option String :=
  match URLRec.parse url with
  | none => none
  | some u =>
    let hostname := String.mk (u.host.data.map Char.toLower)
    (PLATFORM_DOMAINS.find? fun pd => pd.2.any fun d => containsSub hostname d).map
      Prod.fst

/-! ## The YouTube normalizer (src/server.js lines 64-108) -/

/-- The URL built by `new URL("https://www.youtube.com/watch")` followed by
`cleanUrl.searchParams.set("v", videoId)` and `cleanUrl.toString()`. -/
def buildWatchUrl (videoId : String) : String :=
  "https://www.youtube.com/watch?v=" ++ formEncode videoId

/-- `cleanYouTubeUrl(url)` (src/server.js lines 64-94): when the host contains
`youtu.be` or the path contains `/shorts/`, the video id is the first path
segment of length 10 or 11; when that finds nothing and the host contains
`youtube.com`, the id is the `v` query parameter. A truthy id yields the
canonical watch URL, anything else returns the input unchanged (as does a
parse failure). -/
def cleanYouTubeUrl (url : String) : String :=
  match URLRec.parse url with
  | none => url
  | some u =>
    let fromPath : Option String :=
      if containsSub u.host "youtu.be" ∨ containsSub u.pathname "/shorts/" then
        ((splitOnChar '/' u.pathname.data).find? fun seg =>
          10 ≤ seg.length ∧ seg.length ≤ 11).map String.mk
      else none
    let videoId : Option String :=
      if jsTruthy fromPath then fromPath
      else if containsSub u.host "youtube.com" then searchParamsGet u.query "v"
      else none
    match videoId with
    | some v => if v = "" then url else buildWatchUrl v
    | none => url

/-- `extractYouTubeId(url)` (src/server.js lines 101-108): the `v` query
parameter, or null when absent or the URL does not parse. -/
def extractYouTubeId (url : String) : Option String :=
  match URLRec.parse url with
  | none => none
  | some u => searchParamsGet u.query "v"

/-! ## The data model (spec section 3) -/

/-- A `DownloadOption` record: `{ id, label, ext, quality, url?, hasAudio?,
format_id? }`; optional fields are absent (`none`) when a provider does not
set them. -/
structure DownloadOption where
  id : String
  label : String
  ext : String
  quality : String
  url : Option String := none
  hasAudio : Option Bool := none
  format_id : Option String := none
deriving Repr, DecidableEq

/-- The `VideoMetadata` record every provider returns. -/
structure VideoMetadata where
  id : String
  title : String
  uploader : String
  duration : String
  thumbnail : Option String
  description : String
  viewCount : Option Nat
  uploadDate : Option String := none
  options : List DownloadOption
  platform : String
deriving Repr, DecidableEq

/-- The JSON error body `{success:false, error:<message>}` (and, with
`success := true`, the shape of other non-data bodies). -/
structure ErrorBody where
  success : Bool
  error : String
deriving Repr, DecidableEq

/-! ## The YouTube provider (`getYouTubeMetadata`, src/server.js lines 145-198) -/

/-- The body of a noembed.com response, restricted to the fields the server
reads. -/
structure OembedData where
  error : Option String := none
  title : Option String := none
  author_name : Option String := none
  thumbnail_url : Option String := none
deriving Repr, DecidableEq

/-- The four hardcoded YouTube download options (src/server.js lines
162-177); none carries a `url`. -/
def youtubeQualityOptions : List DownloadOption :=
  [{ id := "best", label := "Best Quality (External)", ext := "mp4", quality := "1080p" },
   { id := "720p", label := "HD 720p (External)", ext := "mp4", quality := "720p" },
   { id := "480p", label := "SD 480p (External)", ext := "mp4", quality := "480p" },
   { id := "audio", label := "Audio Only (External)", ext := "mp3", quality := "audio" }]

/-- `getYouTubeMetadata(url)` (src/server.js lines 145-198) as a function of
the URL and the body of the (successful) noembed response: fail when no
video id can be extracted; fail (rewrapped) when the body carries a truthy
`error`; otherwise build the metadata with hardcoded options. Transport-level
failures (network error, timeout) are external inputs not modelled here; they
take the same rewrapping path as a body error. -/
def getYouTubeMetadata (url : String) (data : OembedData) :
    Except String VideoMetadata :=
  match truthyStr (extractYouTubeId url) with
  | none => Except.error "YouTube: Invalid video URL or ID could not be extracted."
  | some videoId =>
    match truthyStr data.error with
    | some e =>
      Except.error ("YouTube: Could not fetch video information. Reason: " ++ e)
    | none =>
      Except.ok
        { id := videoId
          title := jsOrStr data.title "YouTube Video"
          uploader := jsOrStr data.author_name "YouTube"
          duration := "Unknown"
          thumbnail := some ("https://img.youtube.com/vi/" ++ videoId ++ "/maxresdefault.jpg")
          description := jsOrStr data.title ""
          viewCount := none
          uploadDate := none
          options := youtubeQualityOptions
          platform := "YouTube" }

/-! ## The TikTok provider (`getTikTokMetadata`, src/server.js lines 205-271) -/

/-- The `data` payload of a tikwm.com response, restricted to the fields the
server reads. -/
structure TikTokData where
  play : Option String := none
  wmplay : Option String := none
  id : Option String := none
  title : Option String := none
  cover : Option String := none
  images : Option (List String) := none
  duration : JSNum := JSNum.nan
  author_nickname : Option String := none
  author_unique_id : Option String := none
  play_count : Option Nat := none
deriving Repr, DecidableEq

/-- A tikwm.com response: `{code, msg, data}`. -/
structure TikTokResponse where
  code : Int
  msg : Option String := none
  data : Option TikTokData := none
deriving Repr, DecidableEq

/-- The no-watermark option pushed when `data.play` is truthy
(src/server.js lines 230-239). -/
def nowmOption (u : String) : DownloadOption :=
  { id := "nowm", format_id := some "nowm", label := "HD (No Watermark)",
    ext := "mp4", quality := "best", url := some u }

/-- The watermarked option pushed when `data.wmplay` is truthy
(src/server.js lines 241-250). -/
def wmOption (u : String) : DownloadOption :=
  { id := "wm", format_id := some "wm", label := "Standard (With Watermark)",
    ext := "mp4", quality := "standard", url := some u }

/-- `getTikTokMetadata(url)` (src/server.js lines 205-271) as a function of
the tikwm response body (plus `Date.now()` as `now`): fail when `code` is
non-zero or `data` is absent (the message is the service's `msg` or the
default), fail when neither `play` nor `wmplay` yields an option, otherwise
build the metadata; every failure is rewrapped with the `TikTok: ` prefix by
the surrounding catch. -/
def getTikTokMetadata (now : Nat) (url : String) (resp : TikTokResponse) :
    Except String VideoMetadata :=
  match resp.data with
  | none =>
    Except.error ("TikTok: TikTok API Error: " ++
      jsOrStr resp.msg "Video not found or unavailable.")
  | some d =>
    if resp.code ≠ 0 then
      Except.error ("TikTok: TikTok API Error: " ++
        jsOrStr resp.msg "Video not found or unavailable.")
    else
      let qualityOptions :=
        (match truthyStr d.play with
         | some p => [nowmOption p]
         | none => []) ++
        (match truthyStr d.wmplay with
         | some w => [wmOption w]
         | none => [])
      if qualityOptions.isEmpty then
        Except.error "TikTok: No video formats available for this TikTok."
      else
        Except.ok
          { id := jsOrStr d.id ("tiktok-" ++ toString now)
            title := jsOrStr d.title "TikTok Video"
            uploader := jsOrStr d.author_nickname
              (jsOrStr d.author_unique_id "TikTok User")
            duration := formatDuration d.duration
            thumbnail :=
              (match truthyStr d.cover with
               | some c => some c
               | none => truthyStr (d.images.bind List.head?))
            description := jsOrStr d.title ""
            viewCount := d.play_count
            options := qualityOptions
            platform := "TikTok" }

/-! ## The Facebook provider (`getFacebookMetadata`, src/server.js lines 278-331) -/

/-- The three hardcoded Facebook download options (src/server.js lines
290-309); none carries a `url`. -/
def facebookQualityOptions : List DownloadOption :=
  [{ id := "best", label := "Best Quality (External)", ext := "mp4", quality := "best" },
   { id := "sd", label := "Standard Quality (External)", ext := "mp4", quality := "480p" },
   { id := "audio", label := "Audio Only (External)", ext := "mp3", quality := "audio" }]

/-- `getFacebookMetadata(url)` (src/server.js lines 278-331) as a function of
the noembed response body (plus `Date.now()` as `now`): fail (rewrapped) on a
truthy `error` field, otherwise build the metadata with hardcoded options;
the id is the last `/`-separated segment of the URL, or `fb-<now>` when that
segment is empty. -/
def getFacebookMetadata (now : Nat) (url : String) (data : OembedData) :
    Except String VideoMetadata :=
  match truthyStr data.error with
  | some e =>
    Except.error ("Facebook: Could not fetch video information. Reason: " ++ e)
  | none =>
    let lastSeg := ((url.splitOn "/").getLast?).getD ""
    let videoId := if lastSeg = "" then "fb-" ++ toString now else lastSeg
    Except.ok
      { id := videoId
        title := jsOrStr data.title "Facebook Video"
        uploader := jsOrStr data.author_name "Facebook"
        duration := "Unknown"
        thumbnail := truthyStr data.thumbnail_url
        description := jsOrStr data.title ""
        viewCount := none
        options := facebookQualityOptions
        platform := "Facebook" }

/-! ## The `/api/metadata` handler (src/server.js lines 355-427) -/

/-- The heuristic error-message-to-status mapping in the metadata handler's
catch block (src/server.js lines 405-420): `not found`/`unavailable` → 404,
else `Invalid`/`Unsupported` → 400, else `timeout` → 504, else 500. -/
def metadataStatus (msg : String) : Nat :=
  if containsSub msg "not found" ∨ containsSub msg "unavailable" then 404
  else if containsSub msg "Invalid" ∨ containsSub msg "Unsupported" then 400
  else if containsSub msg "timeout" then 504
  else 500

/-- The full response the metadata handler's catch block sends for a provider
error message (src/server.js lines 402-426). -/
def metadataCatch (msg : String) : Nat × ErrorBody :=
  (metadataStatus msg, ⟨false, msg⟩)

/-- Outcome of the `/api/metadata` handler: 200 `{success:true,data}` or an
error status with `{success:false,error}`. -/
inductive MetaResult where
  | ok : VideoMetadata → MetaResult
  | err : Nat → ErrorBody → MetaResult
deriving Repr, DecidableEq

/-- The `/api/metadata` handler (src/server.js lines 355-427) as a function
of the query parameter and the external responses this request would see
(`oe` for the noembed service, `tk` for the tikwm service, `now` for
`Date.now()`): missing/empty URL → 400, invalid URL → 400, unsupported
platform → 400, else dispatch to the provider (cleaning the URL first for
YouTube) and serialize its result, mapping a provider error through
`metadataCatch`. -/
def metadataEndpoint (now : Nat) (urlQ : Option String) (oe : OembedData)
    (tk : TikTokResponse) : MetaResult :=
  match urlQ.map jsTrim with
  | none => MetaResult.err 400 ⟨false, "URL parameter is required."⟩
  | some rawUrl =>
    if rawUrl = "" then MetaResult.err 400 ⟨false, "URL parameter is required."⟩
    else if ¬ isValidUrl rawUrl then
      MetaResult.err 400 ⟨false, "Invalid URL format. Must include http:// or https://"⟩
    else
      match extractPlatform rawUrl with
      | none =>
        MetaResult.err 400 ⟨false, "Unsupported platform. Supported: YouTube, TikTok, Facebook"⟩
      | some platform =>
        let result :=
          if platform = "YouTube" then getYouTubeMetadata (cleanYouTubeUrl rawUrl) oe
          else if platform = "TikTok" then getTikTokMetadata now rawUrl tk
          else getFacebookMetadata now rawUrl oe
        match result with
        | Except.ok md => MetaResult.ok md
        | Except.error msg => MetaResult.err (metadataCatch msg).1 (metadataCatch msg).2

/-! ## The `/api/download` handler (src/server.js lines 433-530) -/

/-- Outcome of the `/api/download` handler: a JSON error response, a 302
redirect, or a streamed attachment (resolved URL, filename, content type);
the byte transfer itself is external. -/
inductive DlResult where
  | json : Nat → ErrorBody → DlResult
  | redirect : Nat → String → DlResult
  | stream : String → String → String → DlResult
deriving Repr, DecidableEq

/-- The download handler's catch block (src/server.js lines 518-529): 404
when the message contains `No valid download URL`, else 500; the body wraps
the message with `Download failed: `. -/
def downloadCatch (msg : String) : DlResult :=
  DlResult.json (if containsSub msg "No valid download URL" then 404 else 500)
    ⟨false, "Download failed: " ++ msg⟩

/-- The attachment filename: the title with every character outside ASCII
letters/digits replaced by `_`, lowercased, plus the option's extension
(defaulted to `mp4` when falsy) (src/server.js lines 502-505). -/
def attachmentFilename (title ext : String) : String :=
  String.mk (title.data.map fun c => if c.isAlphanum then c.toLower else '_') ++
    "." ++ (if ext = "" then "mp4" else ext)

/-- The selection of the served option (src/server.js lines 481-484):
`metadata.options.find(opt => opt.id === format) ||
metadata.options.find(opt => opt.id === "nowm") || metadata.options[0]`. -/
def tiktokSelect (options : List DownloadOption) (format : Option String) :
    Option DownloadOption :=
  (options.find? fun opt => format = some opt.id).orElse fun _ =>
    (options.find? fun opt => opt.id = "nowm").orElse fun _ =>
      options.head?

/-- The TikTok branch of the download handler (src/server.js lines 478-516),
given the freshly fetched metadata and the `format` query parameter: select
the option whose id strictly equals `format`, else the `nowm` option, else
the first option; throw (into `downloadCatch`) when the selection carries no
truthy `url`; otherwise stream from that URL with the derived filename and
content type (`audio/mpeg` exactly when `hasAudio` is `false`). -/
def tiktokDownloadBranch (format : Option String) (md : VideoMetadata) :
    DlResult :=
  match tiktokSelect md.options format with
  | none => downloadCatch "No valid download URL found for the selected format."
  | some opt =>
    match truthyStr opt.url with
    | none => downloadCatch "No valid download URL found for the selected format."
    | some u =>
      DlResult.stream u (attachmentFilename md.title opt.ext)
        (if opt.hasAudio = some false then "audio/mpeg" else "video/mp4")

/-- The `/api/download` handler (src/server.js lines 433-530) as a function
of the configured `API_KEY`, the query parameters, and the external tikwm
response: the key check (401) comes first, then URL validation (400), then
platform classification (400), then a 302 redirect for YouTube/Facebook or
the TikTok streaming branch; a TikTok provider failure falls into
`downloadCatch`. -/
def downloadEndpoint (apiKey : String) (now : Nat)
    (urlQ format key : Option String) (tk : TikTokResponse) : DlResult :=
  if apiKey ≠ "" ∧ key ≠ some apiKey then
    DlResult.json 401 ⟨false, "Invalid API key."⟩
  else
    match urlQ.map jsTrim with
    | none => DlResult.json 400 ⟨false, "Invalid or missing URL parameter."⟩
    | some url =>
      if url = "" ∨ ¬ isValidUrl url then
        DlResult.json 400 ⟨false, "Invalid or missing URL parameter."⟩
      else
        match extractPlatform url with
        | none => DlResult.json 400 ⟨false, "Unsupported platform for download."⟩
        | some platform =>
          if platform = "YouTube" then
            DlResult.redirect 302
              ("https://loader.to/api/download/?url=" ++
                encodeURIComponent (cleanYouTubeUrl url) ++ "&format=mp4")
          else if platform = "Facebook" then
            DlResult.redirect 302
              ("https://getmyfb.com/process/?url=" ++ encodeURIComponent url)
          else
            match getTikTokMetadata now url tk with
            | Except.error msg => downloadCatch msg
            | Except.ok md => tiktokDownloadBranch format md

/-! ## Spec-side definitions (worded from the claims, for comparison) -/

/-- A well-formed YouTube video id character (the ids YouTube issues:
base64url alphabet). -/
def goodIdChar (c : Char) : Bool :=
  c.isAlphanum ∨ c = '-' ∨ c = '_'

/-- After WHATWG input normalization, the string begins — case-insensitively
— with `http:` or `https:` (the widest prefix reading under which the claim
about `isValidUrl` is true of the code). -/
def startsWithHttpSchemeCI (s : String) : Bool :=
  leadsList "http:".data ((normalizeInput s).map Char.toLower) ||
  leadsList "https:".data ((normalizeInput s).map Char.toLower)

/-- The platform table lookup as the claim words it: lowercase the hostname,
then the first of YouTube, TikTok, Facebook (in that fixed order) one of
whose domain entries occurs in the hostname; null when none matches or the
URL does not parse. -/
def platformSpec (url : String) : Option String :=
  match URLRec.parse url with
  | none => none
  | some u =>
    let hostname := String.mk (u.host.data.map Char.toLower)
    if ["youtube.com", "www.youtube.com", "youtu.be", "m.youtube.com"].any
        (fun d => containsSub hostname d) then some "YouTube"
    else if ["tiktok.com", "www.tiktok.com", "vm.tiktok.com"].any
        (fun d => containsSub hostname d) then some "TikTok"
    else if ["facebook.com", "www.facebook.com", "m.facebook.com", "fb.watch"].any
        (fun d => containsSub hostname d) then some "Facebook"
    else none

/-- The tail of the claimed fallback chain: the option with id `nowm`, else
the first option. -/
def selectFallback (options : List DownloadOption) : Option DownloadOption :=
  match options.find? fun (o : DownloadOption) => o.id = "nowm" with
  | some o => some o
  | none => options.head?

/-- The download-option fallback chain as the claim words it: the option
whose id equals the requested format, else the option with id `nowm`, else
the first option. -/
def selectSpecChain (options : List DownloadOption) (format : Option String) :
    Option DownloadOption :=
  match format with
  | some f =>
    match options.find? fun (o : DownloadOption) => o.id = f with
    | some o => some o
    | none => selectFallback options
  | none => selectFallback options

/-- The invariant of claim C8 on one provider outcome: a success carries a
nonempty options sequence. -/
def okOptionsNonempty : Except String VideoMetadata → Bool
  | Except.ok md => ¬ md.options.isEmpty
  | Except.error _ => true

/-- The status code the metadata-endpoint claim assigns to a message, with
the priority order spelled out by disjointness: used to characterize
`metadataStatus`. -/
def mentions404 (msg : String) : Bool :=
  containsSub msg "not found" ∨ containsSub msg "unavailable"

/-- The 400 trigger substrings of the metadata-endpoint claim. -/
def mentions400 (msg : String) : Bool :=
  containsSub msg "Invalid" ∨ containsSub msg "Unsupported"

/-- The 504 trigger substring of the metadata-endpoint claim. -/
def mentions504 (msg : String) : Bool :=
  containsSub msg "timeout"

/-! ## Helper lemmas about the list primitives -/

theorem leadsList_self_append (p l : List Char) : leadsList p (p ++ l) = true := by
  induction p with
  | nil => rfl
  | cons c cs ih => simp [leadsList, ih]

theorem hasSub_of_leads (p l : List Char) (h : leadsList p l = true) :
    hasSub p l = true := by
  cases l with
  | nil => cases p with
    | nil => rfl
    | cons c cs => simp [leadsList] at h
  | cons c cs => simp [hasSub, h]

theorem breakAt_all_neg (p : Char → Bool) (l : List Char)
    (h : ∀ c ∈ l, p c = false) : breakAt p l = (l, []) := by
  induction l with
  | nil => rfl
  | cons c cs ih =>
    have hc : p c = false := h c (by simp)
    simp [breakAt, hc, ih fun d hd => h d (by simp [hd])]

theorem breakAt_append (p : Char → Bool) (l₁ l₂ : List Char)
    (h : ∀ c ∈ l₁, p c = false) :
    breakAt p (l₁ ++ l₂) = (l₁ ++ (breakAt p l₂).1, (breakAt p l₂).2) := by
  induction l₁ with
  | nil => simp
  | cons c cs ih =>
    have hc : p c = false := h c (by simp)
    simp [breakAt, hc, ih fun d hd => h d (by simp [hd])]

theorem breakAt_cons_pos (p : Char → Bool) (c : Char) (cs : List Char)
    (h : p c = true) : breakAt p (c :: cs) = ([], c :: cs) := by
  simp [breakAt, h]

theorem breakAt_fst_append_snd (p : Char → Bool) (l : List Char) :
    (breakAt p l).1 ++ (breakAt p l).2 = l := by
  induction l with
  | nil => rfl
  | cons c cs ih =>
    by_cases hc : p c = true
    · simp [breakAt, hc]
    · simp only [Bool.not_eq_true] at hc
      simp [breakAt, hc, ih]

theorem breakAt_snd_head (p : Char → Bool) (l : List Char) (c : Char)
    (cs : List Char) (h : (breakAt p l).2 = c :: cs) : p c = true := by
  induction l with
  | nil => simp [breakAt] at h
  | cons d ds ih =>
    by_cases hd : p d = true
    · simp [breakAt, hd] at h
      exact h.1 ▸ hd
    · simp only [Bool.not_eq_true] at hd
      simp [breakAt, hd] at h
      exact ih h

theorem dropWhile_all_neg (p : Char → Bool) (l : List Char)
    (h : ∀ c ∈ l, p c = false) : l.dropWhile p = l := by
  cases l with
  | nil => rfl
  | cons c cs => simp [List.dropWhile, h c (by simp)]

theorem splitOnChar_ne_nil (sep : Char) (l : List Char) :
    splitOnChar sep l ≠ [] := by
  cases l with
  | nil => simp [splitOnChar]
  | cons c cs =>
    simp only [splitOnChar]
    cases h : splitOnChar sep cs with
    | nil => simp
    | cons a as =>
      by_cases hc : c = sep <;> simp [hc]

theorem splitOnChar_no_sep (sep : Char) (l : List Char)
    (h : ∀ c ∈ l, c ≠ sep) : splitOnChar sep l = [l] := by
  induction l with
  | nil => rfl
  | cons c cs ih =>
    have hcs := ih fun d hd => h d (by simp [hd])
    simp [splitOnChar, hcs, h c (by simp)]

theorem splitOnChar_cons_sep (sep : Char) (l : List Char) :
    splitOnChar sep (sep :: l) = [] :: splitOnChar sep l := by
  simp only [splitOnChar]
  cases h : splitOnChar sep l with
  | nil => exact absurd h (splitOnChar_ne_nil sep l)
  | cons a as => simp

theorem splitOnChar_append_no_sep (sep : Char) (l₁ l₂ : List Char)
    (h : ∀ c ∈ l₁, c ≠ sep) :
    splitOnChar sep (l₁ ++ l₂) =
      (l₁ ++ (splitOnChar sep l₂).headD []) :: (splitOnChar sep l₂).tail := by
  induction l₁ with
  | nil =>
    simp only [List.nil_append]
    cases hl : splitOnChar sep l₂ with
    | nil => exact absurd hl (splitOnChar_ne_nil sep l₂)
    | cons a as => simp
  | cons c cs ih =>
    have hcs := ih fun d hd => h d (by simp [hd])
    simp only [List.cons_append, splitOnChar]
    rw [show cs.append l₂ = cs ++ l₂ from rfl, hcs]
    simp [h c (by simp)]

theorem map_id_of_fixed {f : Char → Char} {l : List Char}
    (h : ∀ c ∈ l, f c = c) : l.map f = l := by
  induction l with
  | nil => rfl
  | cons c cs ih => simp [h c (by simp), ih fun d hd => h d (by simp [hd])]

/-! ## Character-class facts and normalization lemmas -/

theorem char_eq_of_toNat {c d : Char} (h : c.toNat = d.toNat) : c = d :=
  Char.ext (UInt32.ext h)

theorem goodIdChar_toNat {c : Char} (h : goodIdChar c = true) :
    (48 ≤ c.toNat ∧ c.toNat ≤ 57) ∨ (65 ≤ c.toNat ∧ c.toNat ≤ 90) ∨
    (97 ≤ c.toNat ∧ c.toNat ≤ 122) ∨ c.toNat = 45 ∨ c.toNat = 95 := by
  simp only [goodIdChar, Char.isAlphanum, Char.isAlpha, Char.isUpper, Char.isLower,
    Char.isDigit, Bool.or_eq_true, Bool.and_eq_true, decide_eq_true_eq] at h
  rcases h with ((⟨h1, h2⟩ | ⟨h1, h2⟩) | ⟨h1, h2⟩) | h | h
  · exact Or.inr (Or.inl ⟨h1, h2⟩)
  · exact Or.inr (Or.inr (Or.inl ⟨h1, h2⟩))
  · exact Or.inl ⟨h1, h2⟩
  · subst h; exact Or.inr (Or.inr (Or.inr (Or.inl rfl)))
  · subst h; exact Or.inr (Or.inr (Or.inr (Or.inr rfl)))

theorem goodIdChar_printable {c : Char} (h : goodIdChar c = true) :
    32 < c.toNat := by
  rcases goodIdChar_toNat h with ⟨h1, _⟩ | ⟨h1, _⟩ | ⟨h1, _⟩ | h1 | h1 <;> omega

theorem goodIdChar_ne {c d : Char} (h : goodIdChar c = true)
    (hd : d.toNat = 35 ∨ d.toNat = 37 ∨ d.toNat = 38 ∨ d.toNat = 43 ∨
      d.toNat = 47 ∨ d.toNat = 58 ∨ d.toNat = 61 ∨ d.toNat = 63 ∨ d.toNat = 92) :
    c ≠ d := by
  intro he
  subst he
  rcases goodIdChar_toNat h with ⟨h1, h2⟩ | ⟨h1, h2⟩ | ⟨h1, h2⟩ | h1 | h1 <;> omega

theorem isAlphanum_of_ranges {c : Char}
    (h : (48 ≤ c.toNat ∧ c.toNat ≤ 57) ∨ (65 ≤ c.toNat ∧ c.toNat ≤ 90) ∨
      (97 ≤ c.toNat ∧ c.toNat ≤ 122)) : c.isAlphanum = true := by
  simp only [Char.isAlphanum, Char.isAlpha, Char.isUpper, Char.isLower, Char.isDigit,
    Bool.or_eq_true, Bool.and_eq_true, decide_eq_true_eq]
  rcases h with ⟨h1, h2⟩ | ⟨h1, h2⟩ | ⟨h1, h2⟩
  · exact Or.inr ⟨h1, h2⟩
  · exact Or.inl (Or.inl ⟨h1, h2⟩)
  · exact Or.inl (Or.inr ⟨h1, h2⟩)

theorem goodIdChar_formSafe {c : Char} (h : goodIdChar c = true) :
    isFormSafe c = true := by
  simp only [isFormSafe, Bool.or_eq_true, decide_eq_true_eq]
  rcases goodIdChar_toNat h with hr | hr | hr | h45 | h95
  · exact Or.inl (isAlphanum_of_ranges (Or.inl hr))
  · exact Or.inl (isAlphanum_of_ranges (Or.inr (Or.inl hr)))
  · exact Or.inl (isAlphanum_of_ranges (Or.inr (Or.inr hr)))
  · exact Or.inr (Or.inr (Or.inl (char_eq_of_toNat h45)))
  · exact Or.inr (Or.inr (Or.inr (Or.inr (char_eq_of_toNat h95))))

theorem normalizeInput_eq_data {s : String}
    (h : ∀ c ∈ s.data, 32 < c.toNat) : normalizeInput s = s.data := by
  have hfilter : (s.data.filter fun c => ¬ isTabNl c) = s.data := by
    apply List.filter_eq_self.mpr
    intro c hc
    have hgt := h c hc
    have htab : isTabNl c = false := by
      unfold isTabNl
      apply decide_eq_false
      rintro (h9 | h10 | h13) <;> (subst_vars; exact absurd hgt (by decide))
    simp [htab]
  have hdrop1 : ((s.data.filter fun c => ¬ isTabNl c).dropWhile isC0Space) = s.data := by
    rw [hfilter]
    apply dropWhile_all_neg
    intro c hc
    have hgt := h c hc
    unfold isC0Space
    apply decide_eq_false
    omega
  have hdrop2 : (s.data.reverse.dropWhile isC0Space) = s.data.reverse := by
    apply dropWhile_all_neg
    intro c hc
    have hgt := h c (List.mem_reverse.mp hc)
    unfold isC0Space
    apply decide_eq_false
    omega
  simp only [normalizeInput, hdrop1, hdrop2, List.reverse_reverse]

theorem percentDecode_id {l : List Char} (h : ∀ c ∈ l, c ≠ '%' ∧ c ≠ '+') :
    percentDecode l = l := by
  induction l with
  | nil => rfl
  | cons c cs ih =>
    obtain ⟨hp, hplus⟩ := h c (by simp)
    have hcs := ih fun d hd => (h d (by simp [hd]))
    rw [percentDecode.eq_def]
    split
    · rename_i heq
      exact absurd heq (by simp)
    · rename_i a b rest heq
      exact absurd ((List.cons.injEq _ _ _ _).mp heq).1 hp
    · rename_i c2 rest hnp hne
      injection hne with h1 h2
      subst h1
      subst h2
      simp [hplus, hcs]

theorem formEncode_data_id {l : List Char} (h : ∀ c ∈ l, isFormSafe c = true) :
    (l.map formEncodeChar).flatten = l := by
  induction l with
  | nil => rfl
  | cons c cs ih =>
    have hc : formEncodeChar c = [c] := by simp [formEncodeChar, h c (by simp)]
    simp [hc, ih fun d hd => h d (by simp [hd])]

theorem formEncode_id {s : String} (h : ∀ c ∈ s.data, isFormSafe c = true) :
    formEncode s = s := by
  unfold formEncode
  rw [formEncode_data_id h]

theorem schemeSplit_eq {l sch rest : List Char}
    (h : schemeSplit l = some (sch, rest)) : l = sch ++ ':' :: rest := by
  simp only [schemeSplit] at h
  split at h
  · exact absurd h (by simp)
  · rename_i head afterColon heq
    split at h
    · exact absurd h (by simp)
    · rename_i c0 crest heq2
      split at h
      · have hpair := (Option.some.injEq _ _).mp h
        have hsch : sch = c0 :: crest := ((Prod.mk.injEq _ _ _ _).mp hpair).1.symm
        have hrest : rest = afterColon := ((Prod.mk.injEq _ _ _ _).mp hpair).2.symm
        have hhead : head = ':' :=
          of_decide_eq_true (breakAt_snd_head _ l head afterColon heq)
        have hl := breakAt_fst_append_snd (fun c => c = ':') l
        rw [heq2, heq, hhead] at hl
        rw [hsch, hrest]
        exact hl.symm
      · exact absurd h (by simp)

/-! ## Symbolic evaluation of the parser on the YouTube URL shapes -/

theorem parseSpecialAfterScheme_eq (scheme : String) (h0 : Char)
    (htail pathRest : List Char)
    (hh0 : (decide (h0 = '/' ∨ h0 = '\\')) = false)
    (hauth : ∀ c ∈ h0 :: htail, isAuthorityEnd c = false)
    (hcolon : ∀ c ∈ h0 :: htail, (decide (c = ':')) = false)
    (hat : (h0 :: htail).contains '@' = false)
    (hforb : ∀ c ∈ h0 :: htail, isForbiddenHost c = false)
    (hpathhead : ∀ c cs, pathRest = c :: cs → isAuthorityEnd c = true) :
    parseSpecialAfterScheme scheme ('/' :: '/' :: ((h0 :: htail) ++ pathRest)) =
      some (buildSpecialRest scheme (String.mk ((h0 :: htail).map Char.toLower))
        none pathRest) := by
  have hdrop : (('/' :: '/' :: ((h0 :: htail) ++ pathRest)).dropWhile
      fun c => c = '/' ∨ c = '\\') = (h0 :: htail) ++ pathRest := by
    simp only [List.dropWhile]
    norm_num [hh0]
  have hbreakPath : breakAt isAuthorityEnd pathRest = ([], pathRest) := by
    cases pathRest with
    | nil => rfl
    | cons c cs => exact breakAt_cons_pos _ _ _ (hpathhead c cs rfl)
  have hbreakAuth : breakAt isAuthorityEnd ((h0 :: htail) ++ pathRest) =
      (h0 :: htail, pathRest) := by
    rw [breakAt_append _ _ _ hauth, hbreakPath]
    simp
  have hafter : afterLastAt (h0 :: htail) = h0 :: htail := by
    unfold afterLastAt
    rw [hat]
    simp
  have hbreakColon : breakAt (fun c => c = ':') (h0 :: htail) = (h0 :: htail, []) :=
    breakAt_all_neg _ _ hcolon
  have hany : (h0 :: htail).any isForbiddenHost = false :=
    List.any_eq_false.mpr fun c hc => by simp [hforb c hc]
  unfold parseSpecialAfterScheme
  simp only [hdrop, hbreakAuth, hafter, hbreakColon, hany]
  simp

theorem schemeSplit_https (rest : List Char) :
    schemeSplit ("https".data ++ ':' :: rest) = some ("https".data, rest) := by
  have h1 : breakAt (fun c => c = ':') ("https".data ++ ':' :: rest) =
      ("https".data, ':' :: rest) := by
    rw [breakAt_append _ _ _ (by decide), breakAt_cons_pos _ _ _ (by decide)]
    simp
  simp only [schemeSplit, h1]
  rw [if_pos (show isSchemeFirst 'h' = true ∧
    (['t', 't', 'p', 's'] : List Char).all isSchemeRest = true by decide)]

theorem goodId_breakAll (id : String) (hgood : ∀ c ∈ id.data, goodIdChar c = true)
    (d : Char) (hd : d.toNat = 35 ∨ d.toNat = 37 ∨ d.toNat = 38 ∨ d.toNat = 43 ∨
      d.toNat = 47 ∨ d.toNat = 58 ∨ d.toNat = 61 ∨ d.toNat = 63 ∨ d.toNat = 92) :
    ∀ c ∈ id.data, (decide (c = d)) = false := fun c hc =>
  decide_eq_false (goodIdChar_ne (hgood c hc) hd)

theorem buildSpecialRest_slash_id (scheme host : String) (id : String)
    (hgood : ∀ c ∈ id.data, goodIdChar c = true) :
    buildSpecialRest scheme host none ('/' :: id.data) =
      ⟨scheme, host, none, String.mk ('/' :: id.data), none⟩ := by
  have h35 : ∀ c ∈ '/' :: id.data, (decide (c = '#')) = false := by
    intro c hc
    rcases List.mem_cons.mp hc with h | h
    · subst h; decide
    · exact goodId_breakAll id hgood '#' (by decide) c h
  have h63 : ∀ c ∈ '/' :: id.data, (decide (c = '?')) = false := by
    intro c hc
    rcases List.mem_cons.mp hc with h | h
    · subst h; decide
    · exact goodId_breakAll id hgood '?' (by decide) c h
  have hmap : ('/' :: id.data).map (fun c => if c = '\\' then '/' else c) =
      '/' :: id.data := by
    apply map_id_of_fixed
    intro c hc
    rcases List.mem_cons.mp hc with h | h
    · subst h; decide
    · have := goodIdChar_ne (hgood c h) (show ('\\').toNat = 35 ∨ _ by decide)
      simp [this]
  simp only [buildSpecialRest, breakAt_all_neg _ _ h35, breakAt_all_neg _ _ h63]
  simp [hmap]

theorem parse_youtu_be (id : String) (hgood : ∀ c ∈ id.data, goodIdChar c = true) :
    URLRec.parse ("https://youtu.be/" ++ id) =
      some ⟨"https", "youtu.be", none, String.mk ('/' :: id.data), none⟩ := by
  have hdata : ("https://youtu.be/" ++ id).data = "https://youtu.be/".data ++ id.data :=
    String.data_append _ _
  have hprint : ∀ c ∈ ("https://youtu.be/" ++ id).data, 32 < c.toNat := by
    rw [hdata]
    intro c hc
    rcases List.mem_append.mp hc with h | h
    · exact (by decide : ∀ c ∈ "https://youtu.be/".data, 32 < c.toNat) c h
    · exact goodIdChar_printable (hgood c h)
  have hnorm := normalizeInput_eq_data hprint
  rw [hdata] at hnorm
  have hdec : "https://youtu.be/".data ++ id.data =
      "https".data ++ ':' :: ("//youtu.be/".data ++ id.data) := by
    rw [show ("https://youtu.be/".data : List Char) =
      "https".data ++ ':' :: "//youtu.be/".data from rfl]
    simp
  have hdec2 : "//youtu.be/".data ++ id.data =
      '/' :: '/' :: (('y' :: "outu.be".data) ++ ('/' :: id.data)) := by
    rw [show ("//youtu.be/".data : List Char) =
      '/' :: '/' :: (('y' :: "outu.be".data) ++ ['/']) from rfl]
    simp
  unfold URLRec.parse
  rw [hnorm, hdec, schemeSplit_https]
  simp only
  rw [show String.mk ("https".data.map Char.toLower) = "https" from rfl]
  rw [if_pos (show isSpecialScheme "https" = true by decide)]
  rw [hdec2]
  rw [parseSpecialAfterScheme_eq "https" 'y' "outu.be".data ('/' :: id.data)
    (by decide)
    (by decide)
    (by decide)
    (by decide)
    (by decide)
    (by intro c cs hc; injection hc with h1 _; subst h1; decide)]
  rw [show String.mk (('y' :: "outu.be".data).map Char.toLower) = "youtu.be" from rfl]
  rw [buildSpecialRest_slash_id "https" "youtu.be" id hgood]

theorem buildSpecialRest_plain (scheme host : String) (pathRest : List Char)
    (hne : pathRest ≠ [])
    (h35 : ∀ c ∈ pathRest, (decide (c = '#')) = false)
    (h63 : ∀ c ∈ pathRest, (decide (c = '?')) = false)
    (h92 : ∀ c ∈ pathRest, (decide (c = '\\')) = false) :
    buildSpecialRest scheme host none pathRest =
      ⟨scheme, host, none, String.mk pathRest, none⟩ := by
  have hmap : pathRest.map (fun c => if c = '\\' then '/' else c) = pathRest := by
    apply map_id_of_fixed
    intro c hc
    simp [of_decide_eq_false (h92 c hc)]
  simp only [buildSpecialRest, breakAt_all_neg _ _ h35, breakAt_all_neg _ _ h63]
  simp [hmap, hne]

theorem buildSpecialRest_watch (id : String)
    (hgood : ∀ c ∈ id.data, goodIdChar c = true) :
    buildSpecialRest "https" "youtube.com" none
        ('/' :: ("watch?v=".data ++ id.data)) =
      ⟨"https", "youtube.com", none, "/watch",
        some (String.mk ("v=".data ++ id.data))⟩ := by
  have hdec : '/' :: ("watch?v=".data ++ id.data) =
      "/watch".data ++ '?' :: ("v=".data ++ id.data) := by
    rw [show ("watch?v=".data : List Char) = "watch".data ++ '?' :: "v=".data from rfl]
    simp
  have h35 : ∀ c ∈ "/watch".data ++ '?' :: ("v=".data ++ id.data),
      (decide (c = '#')) = false := by
    intro c hc
    rcases List.mem_append.mp hc with h | h
    · exact (by decide : ∀ c ∈ "/watch".data, (decide (c = '#')) = false) c h
    · rcases List.mem_cons.mp h with h2 | h2
      · subst h2; decide
      · rcases List.mem_append.mp h2 with h3 | h3
        · exact (by decide : ∀ c ∈ "v=".data, (decide (c = '#')) = false) c h3
        · exact goodId_breakAll id hgood '#' (by decide) c h3
  rw [hdec]
  simp only [buildSpecialRest, breakAt_all_neg _ _ h35]
  rw [breakAt_append _ _ _ (by decide), breakAt_cons_pos _ _ _ (by decide)]
  simp

theorem parse_watch (id : String) (hgood : ∀ c ∈ id.data, goodIdChar c = true) :
    URLRec.parse ("https://youtube.com/watch?v=" ++ id) =
      some ⟨"https", "youtube.com", none, "/watch",
        some (String.mk ("v=".data ++ id.data))⟩ := by
  have hdata : ("https://youtube.com/watch?v=" ++ id).data =
      "https://youtube.com/watch?v=".data ++ id.data := String.data_append _ _
  have hprint : ∀ c ∈ ("https://youtube.com/watch?v=" ++ id).data, 32 < c.toNat := by
    rw [hdata]
    intro c hc
    rcases List.mem_append.mp hc with h | h
    · exact (by decide : ∀ c ∈ "https://youtube.com/watch?v=".data, 32 < c.toNat) c h
    · exact goodIdChar_printable (hgood c h)
  have hnorm := normalizeInput_eq_data hprint
  rw [hdata] at hnorm
  have hdec : "https://youtube.com/watch?v=".data ++ id.data =
      "https".data ++ ':' :: ("//youtube.com/watch?v=".data ++ id.data) := by
    rw [show ("https://youtube.com/watch?v=".data : List Char) =
      "https".data ++ ':' :: "//youtube.com/watch?v=".data from rfl]
    simp
  have hdec2 : "//youtube.com/watch?v=".data ++ id.data =
      '/' :: '/' :: (('y' :: "outube.com".data) ++
        ('/' :: ("watch?v=".data ++ id.data))) := by
    rw [show ("//youtube.com/watch?v=".data : List Char) =
      '/' :: '/' :: (('y' :: "outube.com".data) ++ ('/' :: "watch?v=".data)) from rfl]
    simp
  unfold URLRec.parse
  rw [hnorm, hdec, schemeSplit_https]
  simp only
  rw [show String.mk ("https".data.map Char.toLower) = "https" from rfl]
  rw [if_pos (show isSpecialScheme "https" = true by decide)]
  rw [hdec2]
  rw [parseSpecialAfterScheme_eq "https" 'y' "outube.com".data
    ('/' :: ("watch?v=".data ++ id.data))
    (by decide) (by decide) (by decide) (by decide) (by decide)
    (by intro c cs hc; injection hc with h1 _; subst h1; decide)]
  rw [show String.mk (('y' :: "outube.com".data).map Char.toLower) = "youtube.com" from rfl]
  rw [buildSpecialRest_watch id hgood]

theorem parse_shorts (id : String) (hgood : ∀ c ∈ id.data, goodIdChar c = true) :
    URLRec.parse ("https://youtube.com/shorts/" ++ id) =
      some ⟨"https", "youtube.com", none,
        String.mk ("/shorts/".data ++ id.data), none⟩ := by
  have hdata : ("https://youtube.com/shorts/" ++ id).data =
      "https://youtube.com/shorts/".data ++ id.data := String.data_append _ _
  have hprint : ∀ c ∈ ("https://youtube.com/shorts/" ++ id).data, 32 < c.toNat := by
    rw [hdata]
    intro c hc
    rcases List.mem_append.mp hc with h | h
    · exact (by decide : ∀ c ∈ "https://youtube.com/shorts/".data, 32 < c.toNat) c h
    · exact goodIdChar_printable (hgood c h)
  have hnorm := normalizeInput_eq_data hprint
  rw [hdata] at hnorm
  have hdec : "https://youtube.com/shorts/".data ++ id.data =
      "https".data ++ ':' :: ("//youtube.com/shorts/".data ++ id.data) := by
    rw [show ("https://youtube.com/shorts/".data : List Char) =
      "https".data ++ ':' :: "//youtube.com/shorts/".data from rfl]
    simp
  have hdec2 : "//youtube.com/shorts/".data ++ id.data =
      '/' :: '/' :: (('y' :: "outube.com".data) ++
        ('/' :: ("shorts/".data ++ id.data))) := by
    rw [show ("//youtube.com/shorts/".data : List Char) =
      '/' :: '/' :: (('y' :: "outube.com".data) ++ ('/' :: "shorts/".data)) from rfl]
    simp
  have hpath : ('/' :: ("shorts/".data ++ id.data)) = "/shorts/".data ++ id.data := by
    rw [show ("/shorts/".data : List Char) = '/' :: "shorts/".data from rfl]
    rfl
  unfold URLRec.parse
  rw [hnorm, hdec, schemeSplit_https]
  simp only
  rw [show String.mk ("https".data.map Char.toLower) = "https" from rfl]
  rw [if_pos (show isSpecialScheme "https" = true by decide)]
  rw [hdec2]
  rw [parseSpecialAfterScheme_eq "https" 'y' "outube.com".data
    ('/' :: ("shorts/".data ++ id.data))
    (by decide) (by decide) (by decide) (by decide) (by decide)
    (by intro c cs hc; injection hc with h1 _; subst h1; decide)]
  rw [show String.mk (('y' :: "outube.com".data).map Char.toLower) = "youtube.com" from rfl]
  rw [hpath]
  apply congrArg
  apply buildSpecialRest_plain
  · simp [show ("/shorts/".data : List Char) = '/' :: "shorts/".data from rfl]
  · intro c hc
    rcases List.mem_append.mp hc with h | h
    · exact (by decide : ∀ c ∈ "/shorts/".data, (decide (c = '#')) = false) c h
    · exact goodId_breakAll id hgood '#' (by decide) c h
  · intro c hc
    rcases List.mem_append.mp hc with h | h
    · exact (by decide : ∀ c ∈ "/shorts/".data, (decide (c = '?')) = false) c h
    · exact goodId_breakAll id hgood '?' (by decide) c h
  · intro c hc
    rcases List.mem_append.mp hc with h | h
    · exact (by decide : ∀ c ∈ "/shorts/".data, (decide (c = '\\')) = false) c h
    · exact goodId_breakAll id hgood '\\' (by decide) c h

theorem buildWatchUrl_id (id : String)
    (hgood : ∀ c ∈ id.data, goodIdChar c = true) :
    buildWatchUrl id = "https://www.youtube.com/watch?v=" ++ id := by
  unfold buildWatchUrl
  rw [formEncode_id fun c hc => goodIdChar_formSafe (hgood c hc)]

theorem id_ne_empty (id : String) (hlen : 10 ≤ id.data.length) : id ≠ "" := by
  intro h
  subst h
  simp at hlen

theorem splitFind_slash_id (id : String)
    (hgood : ∀ c ∈ id.data, goodIdChar c = true)
    (hlen : 10 ≤ id.data.length ∧ id.data.length ≤ 11) :
    ((splitOnChar '/' ('/' :: id.data)).find? fun seg =>
      10 ≤ seg.length ∧ seg.length ≤ 11) = some id.data := by
  have hnosep : splitOnChar '/' id.data = [id.data] := by
    apply splitOnChar_no_sep
    intro c hc
    exact goodIdChar_ne (hgood c hc) (by decide)
  rw [splitOnChar_cons_sep, hnosep]
  have h0 : (decide (10 ≤ ([] : List Char).length ∧ ([] : List Char).length ≤ 11)) = false := by
    decide
  have hlen1 : 10 ≤ id.length := hlen.1
  have hlen2 : id.length ≤ 11 := hlen.2
  simp [List.find?, h0, decide_eq_true hlen1, decide_eq_true hlen2]

theorem clean_youtu_be (id : String)
    (hgood : ∀ c ∈ id.data, goodIdChar c = true)
    (hlen : 10 ≤ id.data.length ∧ id.data.length ≤ 11) :
    cleanYouTubeUrl ("https://youtu.be/" ++ id) = buildWatchUrl id := by
  have hne : id ≠ "" := id_ne_empty id hlen.1
  unfold cleanYouTubeUrl
  rw [parse_youtu_be id hgood]
  simp only
  rw [if_pos (Or.inl (show containsSub "youtu.be" "youtu.be" = true by decide))]
  rw [splitFind_slash_id id hgood hlen]
  rw [show Option.map String.mk (some id.data) = some id from rfl]
  rw [if_pos (show jsTruthy (some id) = true by simp [jsTruthy, hne])]
  simp only
  rw [if_neg hne]

theorem searchParamsGet_v (id : String)
    (hgood : ∀ c ∈ id.data, goodIdChar c = true) :
    searchParamsGet (some (String.mk ("v=".data ++ id.data))) "v" = some id := by
  simp only [searchParamsGet, parseQueryPairs]
  have hsplit : splitOnChar '&' ('v' :: '=' :: id.data) = ['v' :: '=' :: id.data] := by
    apply splitOnChar_no_sep
    intro c hc
    rcases List.mem_cons.mp hc with h | h
    · subst h; decide
    · rcases List.mem_cons.mp h with h2 | h2
      · subst h2; decide
      · exact goodIdChar_ne (hgood c h2) (by decide)
  rw [show (['v', '='] : List Char) ++ id.data = 'v' :: '=' :: id.data from rfl]
  rw [hsplit]
  have hbreak : breakAt (fun c => c = '=') ('v' :: '=' :: id.data) =
      (['v'], '=' :: id.data) := by
    rw [show ('v' :: '=' :: id.data) = ['v'] ++ '=' :: id.data from rfl]
    rw [breakAt_append _ _ _ (by decide), breakAt_cons_pos _ _ _ (by decide)]
    simp
  simp only [List.filterMap, hbreak]
  have hdec : percentDecode id.data = id.data :=
    percentDecode_id fun c hc =>
      ⟨goodIdChar_ne (hgood c hc) (by decide), goodIdChar_ne (hgood c hc) (by decide)⟩
  have hkey : (String.mk (percentDecode ['v'])) = "v" := rfl
  simp [List.find?, hdec, hkey]

theorem clean_watch (id : String)
    (hgood : ∀ c ∈ id.data, goodIdChar c = true)
    (hlen : 10 ≤ id.data.length ∧ id.data.length ≤ 11) :
    cleanYouTubeUrl ("https://youtube.com/watch?v=" ++ id) = buildWatchUrl id := by
  have hne : id ≠ "" := id_ne_empty id hlen.1
  unfold cleanYouTubeUrl
  rw [parse_watch id hgood]
  simp only
  rw [if_neg (show ¬ (containsSub "youtube.com" "youtu.be" = true ∨
    containsSub "/watch" "/shorts/" = true) by decide)]
  rw [if_neg (show ¬ (jsTruthy none = true) by decide)]
  rw [if_pos (show containsSub "youtube.com" "youtube.com" = true by decide)]
  rw [searchParamsGet_v id hgood]
  simp only
  rw [if_neg hne]

theorem splitFind_shorts (id : String)
    (hgood : ∀ c ∈ id.data, goodIdChar c = true)
    (hlen : 10 ≤ id.data.length ∧ id.data.length ≤ 11) :
    ((splitOnChar '/' ("/shorts/".data ++ id.data)).find? fun seg =>
      10 ≤ seg.length ∧ seg.length ≤ 11) = some id.data := by
  have hnosep : splitOnChar '/' id.data = [id.data] := by
    apply splitOnChar_no_sep
    intro c hc
    exact goodIdChar_ne (hgood c hc) (by decide)
  have hdec : "/shorts/".data ++ id.data =
      '/' :: ("shorts".data ++ '/' :: id.data) := by
    rw [show ("/shorts/".data : List Char) = '/' :: ("shorts".data ++ ['/']) from rfl]
    simp
  rw [hdec, splitOnChar_cons_sep]
  rw [splitOnChar_append_no_sep _ _ _ (by decide)]
  rw [splitOnChar_cons_sep, hnosep]
  have hlen1 : 10 ≤ id.length := hlen.1
  have hlen2 : id.length ≤ 11 := hlen.2
  simp [List.find?, decide_eq_true hlen1, decide_eq_true hlen2]

theorem clean_shorts (id : String)
    (hgood : ∀ c ∈ id.data, goodIdChar c = true)
    (hlen : 10 ≤ id.data.length ∧ id.data.length ≤ 11) :
    cleanYouTubeUrl ("https://youtube.com/shorts/" ++ id) = buildWatchUrl id := by
  have hne : id ≠ "" := id_ne_empty id hlen.1
  unfold cleanYouTubeUrl
  rw [parse_shorts id hgood]
  simp only
  have hshorts : containsSub (String.mk ("/shorts/".data ++ id.data)) "/shorts/" = true := by
    unfold containsSub
    exact hasSub_of_leads _ _ (leadsList_self_append _ _)
  rw [if_pos (Or.inr hshorts)]
  rw [show (['/', 's', 'h', 'o', 'r', 't', 's', '/'] : List Char) =
    "/shorts/".data from rfl]
  rw [splitFind_shorts id hgood hlen]
  rw [show Option.map String.mk (some id.data) = some id from rfl]
  rw [if_pos (show jsTruthy (some id) = true by simp [jsTruthy, hne])]
  simp only
  rw [if_neg hne]

/-! ## Claim theorems -/

/-- Claim C1, counterexample: the claim as stated is false on the code —
`formatDuration(0)` is `"Unknown"` (the `!seconds` guard treats `0` as
missing), not `"0:00"`, and `formatDuration(65)` is `"01:05"` (minutes are
zero-padded even when the hours part is omitted), not `"1:05"`. -/
theorem formatDuration_claim_counterexample :
    formatDuration (JSNum.int 0) ≠ "0:00" ∧
    formatDuration (JSNum.int 65) ≠ "1:05" := by decide

/-- Claim C1, amended: `formatDuration` returns `"Unknown"` on `0` (zero is
falsy in JS and treated as missing), `"01:05"` on `65` (two-digit padding
applies to the leading minutes), `"1:01:01"` on `3661`, and `"Unknown"` on
`-5` and `NaN`. -/
theorem formatDuration_values :
    formatDuration (JSNum.int 0) = "Unknown" ∧
    formatDuration (JSNum.int 65) = "01:05" ∧
    formatDuration (JSNum.int 3661) = "1:01:01" ∧
    formatDuration (JSNum.int (-5)) = "Unknown" ∧
    formatDuration JSNum.nan = "Unknown" := by decide

/-- Claim C2, counterexample: on a successful oEmbed response with no error
field the Facebook provider returns three hardcoded options, not four. -/
theorem facebook_options_count_counterexample :
    (getFacebookMetadata 0 "https://www.facebook.com/watch/v/123"
        { error := none, title := some "T", author_name := some "A" }).toOption.map
      (fun md => md.options.length) = some 3 ∧ (3 : Nat) ≠ 4 := by decide

/-- Claim C2, amended: on a successful oEmbed response with no error field
the Facebook provider returns a metadata record whose options sequence
contains exactly three hardcoded options with ids best/sd/audio, none of
which carries a resolved url. -/
theorem facebook_options_shape (now : Nat) (url : String) (data : OembedData)
    (herr : data.error = none) :
    ∃ md, getFacebookMetadata now url data = Except.ok md ∧
      md.options.map DownloadOption.id = ["best", "sd", "audio"] ∧
      md.options.length = 3 ∧
      ∀ opt ∈ md.options, opt.url = none := by
  unfold getFacebookMetadata
  rw [herr]
  refine ⟨_, rfl, ?_, ?_, ?_⟩
  · show facebookQualityOptions.map DownloadOption.id = ["best", "sd", "audio"]
    decide
  · show facebookQualityOptions.length = 3
    decide
  · show ∀ opt ∈ facebookQualityOptions, opt.url = none
    decide

/-- Witness for the amended C2 at a concrete successful response. -/
theorem facebook_options_shape_witness :
    ∃ md, getFacebookMetadata 0 "https://www.facebook.com/v/1" {} = Except.ok md ∧
      md.options.map DownloadOption.id = ["best", "sd", "audio"] ∧
      md.options.length = 3 ∧
      ∀ opt ∈ md.options, opt.url = none :=
  facebook_options_shape 0 "https://www.facebook.com/v/1" {} rfl

/-- Claim C10: in the download handler the API-key check precedes URL
validation — whenever a secret key is configured and the supplied key does
not match it, the response is 401 `{success:false, error:"Invalid API key."}`
for every url/format query (missing, malformed or unsupported included) and
every upstream state. -/
theorem download_key_check_first (apiKey : String) (now : Nat)
    (urlQ format key : Option String) (tk : TikTokResponse)
    (hconf : apiKey ≠ "") (hmismatch : key ≠ some apiKey) :
    downloadEndpoint apiKey now urlQ format key tk =
      DlResult.json 401 ⟨false, "Invalid API key."⟩ := by
  unfold downloadEndpoint
  rw [if_pos ⟨hconf, hmismatch⟩]

/-- Witness for C10: a configured key and a request with no key and no url
yields 401, not the 400 branch for the missing url. -/
theorem download_key_check_first_witness :
    downloadEndpoint "secret" 0 none none none { code := 0 } =
      DlResult.json 401 ⟨false, "Invalid API key."⟩ :=
  download_key_check_first "secret" 0 none none none { code := 0 }
    (by decide) (by decide)

theorem leadsList_append_cancel (a b c : List Char) :
    leadsList (a ++ b) (a ++ c) = leadsList b c := by
  induction a with
  | nil => rfl
  | cons x xs ih => simp [leadsList, ih]

theorem parseSpecialAfterScheme_scheme {sch : String} {rest : List Char}
    {u : URLRec} (h : parseSpecialAfterScheme sch rest = some u) :
    u.scheme = sch := by
  simp only [parseSpecialAfterScheme] at h
  repeat' split at h
  all_goals first
    | (injection h with h1; subst h1; rfl)
    | simp at h

/-- Claim C3, counterexample: `"HTTP://example.com"` does not begin with the
prefix `http://` or `https://`, yet `isValidUrl` accepts it (the WHATWG
parser lowercases the scheme). -/
theorem isValidUrl_prefix_counterexample :
    isValidUrl "HTTP://example.com" = true ∧
    leadsList "http://".data "HTTP://example.com".data = false ∧
    leadsList "https://".data "HTTP://example.com".data = false := by decide

/-- Claim C3, amended: every string that — after WHATWG input normalization
(tab/newline removal, C0/space trimming) — does not begin case-insensitively
with `http:` or `https:` is rejected by `isValidUrl`; this is the widest
prefix condition the code satisfies, since the parser lowercases the scheme
and tolerates any number of slashes (including none) after the colon. -/
theorem isValidUrl_requires_http_scheme (s : String)
    (h : startsWithHttpSchemeCI s = false) : isValidUrl s = false := by
  cases hv : isValidUrl s with
  | false => rfl
  | true =>
    exfalso
    unfold isValidUrl at hv
    rw [startsWithHttpSchemeCI] at h
    cases hp : URLRec.parse s with
    | none => rw [hp] at hv; simp at hv
    | some u =>
      rw [hp] at hv
      have hscheme : u.scheme = "http" ∨ u.scheme = "https" := of_decide_eq_true hv
      unfold URLRec.parse at hp
      cases hs : schemeSplit (normalizeInput s) with
      | none => rw [hs] at hp; simp at hp
      | some pr =>
        obtain ⟨schemeCs, afterColon⟩ := pr
        rw [hs] at hp
        simp only at hp
        have hu : u.scheme = String.mk (schemeCs.map Char.toLower) := by
          by_cases hsp : isSpecialScheme (String.mk (schemeCs.map Char.toLower)) = true
          · rw [if_pos hsp] at hp
            exact parseSpecialAfterScheme_scheme hp
          · rw [if_neg hsp] at hp
            injection hp with h1
            subst h1
            rfl
        have hl : normalizeInput s = schemeCs ++ ':' :: afterColon := schemeSplit_eq hs
        have hmap : (normalizeInput s).map Char.toLower =
            (schemeCs.map Char.toLower) ++ ':' :: (afterColon.map Char.toLower) := by
          rw [hl]
          simp [show Char.toLower ':' = ':' from rfl]
        rw [hu] at hscheme
        rw [hmap] at h
        rw [Bool.or_eq_false_iff] at h
        rcases hscheme with hcase | hcase
        · have hdata : schemeCs.map Char.toLower = "http".data := congrArg String.data hcase
          rw [hdata] at h
          have : leadsList "http:".data ("http".data ++ ':' :: (afterColon.map Char.toLower)) = true := by
            rw [show ("http:".data : List Char) = "http".data ++ [':'] from rfl]
            rw [show ("http".data : List Char) ++ ':' :: (afterColon.map Char.toLower) =
              "http".data ++ ([':'] ++ afterColon.map Char.toLower) from by simp]
            rw [leadsList_append_cancel]
            simp [leadsList]
          exact Bool.false_ne_true ((h.1).symm.trans this)
        · have hdata : schemeCs.map Char.toLower = "https".data := congrArg String.data hcase
          rw [hdata] at h
          have : leadsList "https:".data ("https".data ++ ':' :: (afterColon.map Char.toLower)) = true := by
            rw [show ("https:".data : List Char) = "https".data ++ [':'] from rfl]
            rw [show ("https".data : List Char) ++ ':' :: (afterColon.map Char.toLower) =
              "https".data ++ ([':'] ++ afterColon.map Char.toLower) from by simp]
            rw [leadsList_append_cancel]
            simp [leadsList]
          exact Bool.false_ne_true ((h.2).symm.trans this)

/-- Witness for the amended C3: `ftp://example.com` has no case-insensitive
http(s) scheme prefix and is rejected. -/
theorem isValidUrl_requires_http_scheme_witness :
    startsWithHttpSchemeCI "ftp://example.com" = false ∧
    isValidUrl "ftp://example.com" = false :=
  ⟨by decide, isValidUrl_requires_http_scheme "ftp://example.com" (by decide)⟩

/-- Claim C4: for every well-formed YouTube video id (10 or 11 characters
from the base64url alphabet), the three variant forms `https://youtu.be/ID`,
`https://youtube.com/watch?v=ID` and `https://youtube.com/shorts/ID` are all
mapped by `cleanYouTubeUrl` to the same canonical
`https://www.youtube.com/watch?v=ID`. -/
theorem cleanYouTubeUrl_canonicalizes (id : String)
    (hgood : ∀ c ∈ id.data, goodIdChar c = true)
    (hlen : 10 ≤ id.data.length ∧ id.data.length ≤ 11) :
    cleanYouTubeUrl ("https://youtu.be/" ++ id) =
      "https://www.youtube.com/watch?v=" ++ id ∧
    cleanYouTubeUrl ("https://youtube.com/watch?v=" ++ id) =
      "https://www.youtube.com/watch?v=" ++ id ∧
    cleanYouTubeUrl ("https://youtube.com/shorts/" ++ id) =
      "https://www.youtube.com/watch?v=" ++ id := by
  have hw := buildWatchUrl_id id hgood
  exact ⟨by rw [clean_youtu_be id hgood hlen, hw],
         by rw [clean_watch id hgood hlen, hw],
         by rw [clean_shorts id hgood hlen, hw]⟩

/-- Witness for C4 at the 11-character id `dQw4w9WgXcQ`. -/
theorem cleanYouTubeUrl_canonicalizes_witness :
    cleanYouTubeUrl "https://youtu.be/dQw4w9WgXcQ" =
      "https://www.youtube.com/watch?v=dQw4w9WgXcQ" ∧
    cleanYouTubeUrl "https://youtube.com/watch?v=dQw4w9WgXcQ" =
      "https://www.youtube.com/watch?v=dQw4w9WgXcQ" ∧
    cleanYouTubeUrl "https://youtube.com/shorts/dQw4w9WgXcQ" =
      "https://www.youtube.com/watch?v=dQw4w9WgXcQ" :=
  cleanYouTubeUrl_canonicalizes "dQw4w9WgXcQ" (by decide) (by decide)

theorem tiktokSelect_eq_spec (options : List DownloadOption)
    (format : Option String) :
    tiktokSelect options format = selectSpecChain options format := by
  cases format with
  | none =>
    simp only [tiktokSelect, selectSpecChain]
    have hnone : (options.find? fun opt =>
        (none : Option String) = some opt.id) = none := by
      apply List.find?_eq_none.mpr
      intro x _
      simp
    rw [hnone]
    unfold selectFallback
    cases hn : options.find? fun (o : DownloadOption) => o.id = "nowm" with
    | none => rfl
    | some o => rfl
  | some f =>
    simp only [tiktokSelect, selectSpecChain]
    have hpred : (fun (opt : DownloadOption) =>
        decide ((some f : Option String) = some opt.id)) =
        fun (opt : DownloadOption) => decide (opt.id = f) := by
      funext opt
      simp [eq_comm]
    rw [show (fun (opt : DownloadOption) =>
      decide ((some f : Option String) = some opt.id)) =
      (fun (opt : DownloadOption) => decide (opt.id = f)) from hpred]
    cases hf : options.find? fun (opt : DownloadOption) => opt.id = f with
    | none =>
      unfold selectFallback
      cases hn : options.find? fun (o : DownloadOption) => o.id = "nowm" with
      | none => rfl
      | some o => rfl
    | some o => rfl

/-- Claim C5: the TikTok download branch serves the option selected by the
exact fallback chain (requested format id, else `nowm`, else the first
option): when the selection carries a truthy resolved url the branch streams
from it, and when it carries no resolvable url the branch responds 404 with
the `Download failed:` body. -/
theorem tiktok_download_selection (md : VideoMetadata) (format : Option String) :
    tiktokSelect md.options format = selectSpecChain md.options format ∧
    (∀ opt u, selectSpecChain md.options format = some opt →
      truthyStr opt.url = some u →
      tiktokDownloadBranch format md =
        DlResult.stream u (attachmentFilename md.title opt.ext)
          (if opt.hasAudio = some false then "audio/mpeg" else "video/mp4")) ∧
    ((selectSpecChain md.options format).bind (fun opt => truthyStr opt.url) = none →
      tiktokDownloadBranch format md =
        DlResult.json 404
          ⟨false, "Download failed: No valid download URL found for the selected format."⟩) := by
  have hsel := tiktokSelect_eq_spec md.options format
  have hcatch : downloadCatch "No valid download URL found for the selected format." =
      DlResult.json 404
        ⟨false, "Download failed: No valid download URL found for the selected format."⟩ := by
    decide
  refine ⟨hsel, ?_, ?_⟩
  · intro opt u hopt hurl
    unfold tiktokDownloadBranch
    rw [hsel, hopt]
    simp only [hurl]
  · intro hnone
    unfold tiktokDownloadBranch
    rw [hsel]
    cases hs : selectSpecChain md.options format with
    | none => rw [hcatch]
    | some opt =>
      rw [hs] at hnone
      simp only [Option.bind] at hnone
      simp only [hnone]
      rw [hcatch]

/-- Witness for C5 at concrete metadata: with no requested format and no
`nowm` option the first option is served when resolvable, and an option
without a url yields the 404 response. -/
theorem tiktok_download_selection_witness :
    tiktokDownloadBranch none
        { id := "1", title := "T", uploader := "u", duration := "0:30",
          thumbnail := none, description := "", viewCount := none,
          options := [{ id := "wm", label := "Standard (With Watermark)",
                        ext := "mp4", quality := "standard",
                        url := some "https://cdn/w.mp4" }],
          platform := "TikTok" } =
      DlResult.stream "https://cdn/w.mp4" "t.mp4" "video/mp4" ∧
    tiktokDownloadBranch (some "nowm")
        { id := "1", title := "T", uploader := "u", duration := "0:30",
          thumbnail := none, description := "", viewCount := none,
          options := [{ id := "best", label := "Best", ext := "mp4",
                        quality := "best" }],
          platform := "TikTok" } =
      DlResult.json 404
        ⟨false, "Download failed: No valid download URL found for the selected format."⟩ := by
  constructor
  · exact (tiktok_download_selection _ none).2.1
      { id := "wm", label := "Standard (With Watermark)", ext := "mp4",
        quality := "standard", url := some "https://cdn/w.mp4" }
      "https://cdn/w.mp4" (by decide) (by decide)
  · exact (tiktok_download_selection _ (some "nowm")).2.2 (by decide)

/-- Claim C6: the metadata handler's catch maps a provider error message to
`{success:false, error:<message>}` with the status determined by substring
matching in the claimed priority order: `not found`/`unavailable` → 404,
else `Invalid`/`Unsupported` → 400, else `timeout` → 504, else 500. -/
theorem metadata_error_mapping (msg : String) :
    metadataCatch msg = (metadataStatus msg, ⟨false, msg⟩) ∧
    (metadataStatus msg = 404 ↔ mentions404 msg = true) ∧
    (metadataStatus msg = 400 ↔
      (mentions404 msg = false ∧ mentions400 msg = true)) ∧
    (metadataStatus msg = 504 ↔
      (mentions404 msg = false ∧ mentions400 msg = false ∧
        mentions504 msg = true)) ∧
    (metadataStatus msg = 500 ↔
      (mentions404 msg = false ∧ mentions400 msg = false ∧
        mentions504 msg = false)) := by
  refine ⟨rfl, ?_⟩
  unfold metadataStatus mentions404 mentions400 mentions504
  by_cases h1 : containsSub msg "not found" = true ∨ containsSub msg "unavailable" = true
  · simp [h1]
  · by_cases h2 : containsSub msg "Invalid" = true ∨ containsSub msg "Unsupported" = true
    · simp [h1, h2]
    · by_cases h3 : containsSub msg "timeout" = true
      · simp [h1, h2, h3]
      · simp [h1, h2, h3]

/-- Claim C7: a TikTok resolver payload carrying neither a `play` nor a
`wmplay` field makes the provider fail with the `No video formats` message,
and the metadata endpoint surfaces that failure as HTTP 500 — the message
matches none of the 404/400/504 substring heuristics. -/
theorem tiktok_no_formats_500 (now : Nat) (url : String) (oe : OembedData)
    (tk : TikTokResponse) (d : TikTokData)
    (hcode : tk.code = 0) (hdata : tk.data = some d)
    (hplay : truthyStr d.play = none) (hwm : truthyStr d.wmplay = none)
    (hvalid : isValidUrl url = true)
    (hplat : extractPlatform url = some "TikTok")
    (htrim : jsTrim url = url) (hne : url ≠ "") :
    getTikTokMetadata now url tk =
      Except.error "TikTok: No video formats available for this TikTok." ∧
    metadataStatus "TikTok: No video formats available for this TikTok." = 500 ∧
    metadataEndpoint now (some url) oe tk =
      MetaResult.err 500
        ⟨false, "TikTok: No video formats available for this TikTok."⟩ := by
  have hprov : getTikTokMetadata now url tk =
      Except.error "TikTok: No video formats available for this TikTok." := by
    unfold getTikTokMetadata
    rw [hdata]
    simp only [hcode]
    rw [if_neg (by simp)]
    rw [hplay, hwm]
    rfl
  have hstatus : metadataStatus "TikTok: No video formats available for this TikTok." = 500 := by
    decide
  refine ⟨hprov, hstatus, ?_⟩
  unfold metadataEndpoint
  simp only [Option.map_some', htrim]
  rw [if_neg hne]
  rw [if_neg (by simp [hvalid])]
  rw [hplat]
  simp only
  rw [if_neg (by decide : ¬ (("TikTok" : String) = "YouTube"))]
  rw [if_pos trivial]
  rw [hprov]
  simp only [metadataCatch, hstatus]

/-- Witness for C7: a concrete TikTok URL and a resolver payload with
neither `play` nor `wmplay` yield the provider failure and the 500 response. -/
theorem tiktok_no_formats_500_witness :
    getTikTokMetadata 0 "https://www.tiktok.com/@user/video/123"
        { code := 0, data := some {} } =
      Except.error "TikTok: No video formats available for this TikTok." ∧
    metadataStatus "TikTok: No video formats available for this TikTok." = 500 ∧
    metadataEndpoint 0 (some "https://www.tiktok.com/@user/video/123") {}
        { code := 0, data := some {} } =
      MetaResult.err 500
        ⟨false, "TikTok: No video formats available for this TikTok."⟩ :=
  tiktok_no_formats_500 0 "https://www.tiktok.com/@user/video/123" {}
    { code := 0, data := some {} } {} rfl rfl rfl rfl (by decide) (by decide)
    (by decide) (by decide)

/-- Claim C8: every metadata record any of the three providers returns on
success has a nonempty options sequence; a provider that would produce zero
options fails instead. -/
theorem providers_options_nonempty :
    (∀ url data, okOptionsNonempty (getYouTubeMetadata url data) = true) ∧
    (∀ now url resp, okOptionsNonempty (getTikTokMetadata now url resp) = true) ∧
    (∀ now url data, okOptionsNonempty (getFacebookMetadata now url data) = true) := by
  refine ⟨?_, ?_, ?_⟩
  · intro url data
    unfold getYouTubeMetadata
    cases truthyStr (extractYouTubeId url) with
    | none => rfl
    | some vid =>
      cases truthyStr data.error with
      | some e => rfl
      | none => rfl
  · intro now url resp
    unfold okOptionsNonempty
    split
    · rename_i md heq
      unfold getTikTokMetadata at heq
      repeat' split at heq
      all_goals first
        | (simp at heq; subst heq; simp)
        | simp at heq
    · rfl
  · intro now url data
    unfold getFacebookMetadata
    cases truthyStr data.error with
    | some e => rfl
    | none => rfl

/-- Claim C9: `extractPlatform` lowercases the parsed hostname and returns
the first platform of the fixed YouTube/TikTok/Facebook table one of whose
domain entries occurs in the hostname, null when none matches; in particular
`https://vm.tiktok.com/xyz` classifies as TikTok and `https://example.com`
matches nothing. -/
theorem extractPlatform_spec :
    extractPlatform "https://vm.tiktok.com/xyz" = some "TikTok" ∧
    extractPlatform "https://example.com" = none ∧
    ∀ url, extractPlatform url = platformSpec url := by
  refine ⟨by decide, by decide, ?_⟩
  intro url
  unfold extractPlatform platformSpec
  cases URLRec.parse url with
  | none => rfl
  | some u =>
    simp only [PLATFORM_DOMAINS, List.find?]
    by_cases h1 : (["youtube.com", "www.youtube.com", "youtu.be", "m.youtube.com"].any
        fun d => containsSub (String.mk (u.host.data.map Char.toLower)) d) = true
    · simp [h1]
    · by_cases h2 : (["tiktok.com", "www.tiktok.com", "vm.tiktok.com"].any
          fun d => containsSub (String.mk (u.host.data.map Char.toLower)) d) = true
      · simp [h1, h2]
      · by_cases h3 : (["facebook.com", "www.facebook.com", "m.facebook.com", "fb.watch"].any
            fun d => containsSub (String.mk (u.host.data.map Char.toLower)) d) = true
        · simp [h1, h2, h3]
        · simp [h1, h2, h3]
